import Mathlib

set_option autoImplicit false

/-
Verification of the seat-inventory / booking / rating core of the Tareeqi
carpooling backend.  The Lean definitions below are a shallow embedding of
the mutation paths in src/routes/rides.js, src/routes/auth.js (the booking
router) and src/routes/reviews.js, together with the driver-profile insert
(drivers router) and the CHECK constraints of the SQL schema (init.js).
Database rows become structure values, tables become lists, each HTTP
handler becomes a function from a state to Except; an error result denotes
the handler returning without committing any mutation (every multi-step
mutation in the source is wrapped in a transaction that rolls back on
failure, and all validation failures return before the transaction).
-/

namespace Tareeqi

/-- round2 models the JavaScript expression Math.round(fee * 100) / 100
used by calculateTrafficFee; Math.round rounds halves toward positive
infinity, which is exactly Mathlib round. -/
def round2 (x : ℚ) : ℚ := (round (x * 100) : ℤ) / 100

/-- sqlRound2 models the SQL expression ROUND(x::numeric, 2), which rounds
halves away from zero; on the nonnegative values that occur here it agrees
with round2. -/
def sqlRound2 (x : ℚ) : ℚ :=
  if 0 ≤ x then ((⌊x * 100 + 1/2⌋ : ℤ) : ℚ) / 100
  else -(((⌊(-x) * 100 + 1/2⌋ : ℤ) : ℚ) / 100)

/-- Ride status enum ride_status of the schema. -/
inductive RideStatus
  | scheduled
  | in_progress
  | completed
  | cancelled
deriving DecidableEq, Repr

/-- Booking status enum booking_status of the schema. -/
inductive BookingStatus
  | pending
  | confirmed
  | cancelled
  | completed
deriving DecidableEq, Repr

/-- Distinct failure outcomes of the embedded handlers, one per distinct
rejection in the source (HTTP status plus message). -/
inductive Err
  | validation        -- 400 malformed or out-of-range input
  | notFound          -- 404 ride / booking / review missing
  | forbidden         -- 403 wrong identity for the action
  | conflict          -- 409 duplicate (already booked, profile exists, ...)
  | alreadyDeparted   -- 400 this ride has already departed
  | selfBooking       -- 400 you cannot book your own ride
  | insufficientSeats -- 400 only N seats available
  | invalidState      -- 400 only scheduled rides can be marked as completed
  | missingProfile    -- 400 please create a driver profile first
  | dbError           -- 500 a schema CHECK constraint rejected the write
deriving DecidableEq, Repr

/-- Row of the rides table (the columns the core mutates or reads;
presentation-only columns such as origin, destination, coordinates,
amenities and description are omitted because no mutation path reads
them). -/
structure Ride where
  id : Nat
  driver_id : Nat
  departure_time : Int
  total_seats : Int
  available_seats : Int
  price_per_seat : ℚ
  traffic_fee : ℚ
  status : RideStatus
deriving DecidableEq, Repr

/-- Row of the bookings table. -/
structure Booking where
  id : Nat
  ride_id : Nat
  passenger_id : Nat
  seats_booked : Int
  total_price : ℚ
  status : BookingStatus
  pickup_location : Option String
  dropoff_location : Option String
deriving DecidableEq, Repr

/-- Row of the driver_profiles table (the columns the core reads or
writes: car_seats bounds ride capacity, rating and total_rides are the
denormalized aggregates). -/
structure DriverProfile where
  user_id : Nat
  car_seats : Int
  rating : ℚ
  total_rides : Int
deriving DecidableEq, Repr

/-- Row of the reviews table. -/
structure Review where
  id : Nat
  booking_id : Nat
  reviewer_id : Nat
  reviewee_id : Nat
  rating : Int
  comment : Option String
deriving DecidableEq, Repr

/-- The persistent store: the four tables the core touches. -/
structure St where
  rides : List Ride
  bookings : List Booking
  profiles : List DriverProfile
  reviews : List Review
deriving DecidableEq, Repr

def St.empty : St := ⟨[], [], [], []⟩

/-- Fresh id for an insert, strictly larger than every existing id
(modelling the SERIAL primary key). -/
def freshId (ids : List Nat) : Nat := ids.foldr max 0 + 1

/-- Departure time as the source sees it: raw is the request string (the
fee calculator inspects it textually), utcHour is the hour new Date(raw)
yields via getUTCHours, and instant is the point on the timeline that
new Date(raw) comparisons use. -/
structure DepartureTime where
  raw : String
  utcHour : Nat
  instant : Int
deriving DecidableEq, Repr

/-- Hour digits read directly from a datetime-local style string,
character by character: the JavaScript expression
parseInt(raw.split("T")[1].split(":")[0], 10).  The segment between the
first T and the next T (split("T")[1]) is cut at the first colon
(split(":")[0]) and its leading decimal digits are parsed; a segment with
no leading digits is NaN in JavaScript and 0 here, and both fall outside
every peak-hour window, so the fee agrees. -/
def localHourDigits (s : String) : Nat :=
  let afterT := ((s.data.dropWhile (fun c => c ≠ 'T')).tail).takeWhile (fun c => c ≠ 'T')
  let hourPart := afterT.takeWhile (fun c => c ≠ ':')
  let digits := hourPart.takeWhile Char.isDigit
  if digits.isEmpty then 0
  else digits.foldl (fun n c => 10 * n + (c.toNat - 48)) 0

/-- Hour extraction of calculateTrafficFee: a string containing a T
(String.includes) and not ending in Z (String.endsWith, checked on the
last character) has its hour read textually, treated as already-local;
anything else is parsed as a date and its UTC hour shifted by the fixed
+3h Jordan offset modulo 24. -/
def extractHour (t : DepartureTime) : Nat :=
  if t.raw.data.contains 'T' && !(t.raw.data.getLast? == some 'Z') then
    localHourDigits t.raw
  else (t.utcHour + 3) % 24

/-- Peak-hour window of calculateTrafficFee: [7,9) and [16,18). -/
def isPeakHour (hour : Nat) : Prop :=
  (7 ≤ hour ∧ hour < 9) ∨ (16 ≤ hour ∧ hour < 18)

instance (hour : Nat) : Decidable (isPeakHour hour) :=
  inferInstanceAs (Decidable ((7 ≤ hour ∧ hour < 9) ∨ (16 ≤ hour ∧ hour < 18)))

/-- calculateTrafficFee of src/routes/rides.js: 0 when the distance is
falsy (0 here) or outside peak hours, otherwise 0.05 per km rounded to
two decimals.  The departureTime argument is always present at the one
call site, so the falsy departureTime guard never fires in the model. -/
def calculateTrafficFee (departureTime : DepartureTime) (distanceKm : ℚ) : ℚ :=
  if distanceKm = 0 then 0
  else if isPeakHour (extractHour departureTime) then
    round2 (distanceKm * (5 / 100))
  else 0

/-- POST /api/drivers (drivers router): create a driver profile.  The
falsy presence check rejects car_seats 0; a duplicate profile is a 409;
the schema CHECK car_seats BETWEEN 1 AND 8 rejects out-of-range values at
the insert.  Rating and total_rides take their schema defaults 0. -/
def createDriverProfile (userId : Nat) (car_seats : Int) (st : St) :
    Except Err (St × DriverProfile) :=
  if car_seats = 0 then .error .validation
  else if (st.profiles.find? (fun p => p.user_id == userId)).isSome then .error .conflict
  else if car_seats < 1 ∨ 8 < car_seats then .error .dbError
  else
    let p : DriverProfile :=
      { user_id := userId,
        car_seats := car_seats,
        rating := 0,
        total_rides := 0 }
    .ok ({ st with profiles := st.profiles ++ [p] }, p)

/-- POST /api/rides (rides router): create a ride.  Steps in source
order: falsy presence checks (price_per_seat 0 is falsy and rejected),
driver profile lookup, seat range 1..8, car capacity bound, departure not
in the past, traffic fee computation, insert with
total_seats = available_seats = the requested seats.  The schema CHECK
price_per_seat >= 0 rejects a negative price at the insert. -/
def createRide (now : Int) (userId : Nat) (departure : DepartureTime)
    (available_seats : Int) (price_per_seat : ℚ) (distance_km : ℚ) (st : St) :
    Except Err (St × Ride) :=
  if price_per_seat = 0 then .error .validation
  else
    match st.profiles.find? (fun p => p.user_id == userId) with
    | none => .error .missingProfile
    | some profile =>
      if available_seats < 1 ∨ 8 < available_seats then .error .validation
      else if profile.car_seats < available_seats then .error .validation
      else if departure.instant < now then .error .validation
      else if price_per_seat < 0 then .error .dbError
      else
        let fee := calculateTrafficFee departure distance_km
        let r : Ride :=
          { id := freshId (st.rides.map (·.id)),
            driver_id := userId,
            departure_time := departure.instant,
            total_seats := available_seats,
            available_seats := available_seats,
            price_per_seat := price_per_seat,
            traffic_fee := fee,
            status := RideStatus.scheduled }
        .ok ({ st with rides := st.rides ++ [r] }, r)

/-- PUT /api/rides/:id (rides router): partial update of a ride by its
driver.  Of the updatable columns the model keeps the ones the core reads
(departure_time, available_seats, price_per_seat, status); the
presentation-only columns (origin, coordinates, amenities, ...) are
omitted, so the no-valid-fields rejection is over the kept ones.  There
is no validation of available_seats against total_seats or of the
current status; the schema CHECKs available_seats >= 0 and
price_per_seat >= 0 reject negative values at the update. -/
def updateRide (userId rideId : Nat) (departure_time : Option Int)
    (available_seats : Option Int) (price_per_seat : Option ℚ)
    (status : Option RideStatus) (st : St) : Except Err (St × Ride) :=
  match st.rides.find? (fun r => r.id == rideId && r.driver_id == userId) with
  | none => .error .notFound
  | some ride =>
    if departure_time = none ∧ available_seats = none ∧ price_per_seat = none ∧
        status = none then
      .error .validation
    else
      let r' : Ride := { ride with
        departure_time := departure_time.getD ride.departure_time,
        available_seats := available_seats.getD ride.available_seats,
        price_per_seat := price_per_seat.getD ride.price_per_seat,
        status := status.getD ride.status }
      if r'.available_seats < 0 ∨ r'.price_per_seat < 0 then .error .dbError
      else
        .ok ({ st with
                rides := st.rides.map (fun x => if x.id = rideId then r' else x) },
             r')

/-- POST /api/bookings (bookings router): create or reactivate a booking.
Steps in source order: seat range 1..8 (parseInt validation), lookup of
the ride by id with status scheduled, departed check, self-booking check,
seat sufficiency check, lookup of any existing booking of this passenger
on this ride, price computation, then inside one transaction either a
reactivating update of the existing row (rejected 409 when it is pending
or confirmed) or a fresh insert, followed by the seat decrement on the
ride row. -/
def createBooking (now : Int) (userId rideId : Nat) (seats_booked : Int)
    (pickup_location dropoff_location : Option String) (st : St) :
    Except Err (St × Booking) :=
  if seats_booked < 1 ∨ 8 < seats_booked then .error .validation
  else
    match st.rides.find? (fun r => r.id == rideId && r.status == RideStatus.scheduled) with
    | none => .error .notFound
    | some ride =>
      if ride.departure_time ≤ now then .error .alreadyDeparted
      else if ride.driver_id = userId then .error .selfBooking
      else if ride.available_seats < seats_booked then .error .insufficientSeats
      else
        let existing := st.bookings.find?
          (fun b => b.ride_id == rideId && b.passenger_id == userId)
        let total_price := ride.price_per_seat * seats_booked + ride.traffic_fee
        let rides' := st.rides.map (fun r =>
          if r.id = rideId then
            { r with available_seats := r.available_seats - seats_booked }
          else r)
        match existing with
        | some b =>
          if b.status = .pending ∨ b.status = .confirmed then .error .conflict
          else
            let b' : Booking :=
              { b with
                status := BookingStatus.pending,
                seats_booked := seats_booked,
                total_price := total_price,
                pickup_location := pickup_location,
                dropoff_location := dropoff_location }
            let bookings' := st.bookings.map (fun x => if x.id = b.id then b' else x)
            .ok ({ st with bookings := bookings', rides := rides' }, b')
        | none =>
          let b' : Booking :=
            { id := freshId (st.bookings.map (·.id)),
              ride_id := rideId,
              passenger_id := userId,
              seats_booked := seats_booked,
              total_price := total_price,
              status := BookingStatus.pending,
              pickup_location := pickup_location,
              dropoff_location := dropoff_location }
          .ok ({ st with bookings := st.bookings ++ [b'], rides := rides' }, b')

/-- PUT /api/bookings/:id/status (bookings router): set a booking status.
The request must name confirmed, cancelled or completed (any other value,
modelled by pending, is a 400); the requester must be the rides driver or
the bookings passenger, and only the driver may confirm.  Inside one
transaction: when the request is cancelled and the booking is not already
cancelled, the ride row gains back seats_booked seats; then the booking
row gets the new status.  No other check of the current status exists. -/
def updateBookingStatus (userId bookingId : Nat) (status : BookingStatus) (st : St) :
    Except Err (St × Booking) :=
  if status = .pending then .error .validation
  else
    match st.bookings.find? (fun b => b.id == bookingId) with
    | none => .error .notFound
    | some b =>
      match st.rides.find? (fun r => r.id == b.ride_id) with
      | none => .error .notFound
      | some ride =>
        let isDriver := ride.driver_id = userId
        let isPassenger := b.passenger_id = userId
        if ¬ isDriver ∧ ¬ isPassenger then .error .forbidden
        else if status = .confirmed ∧ ¬ isDriver then .error .forbidden
        else
          let rides' :=
            if status = .cancelled ∧ b.status ≠ .cancelled then
              st.rides.map (fun r =>
                if r.id = b.ride_id then
                  { r with available_seats := r.available_seats + b.seats_booked }
                else r)
            else st.rides
          let b' : Booking := { b with status := status }
          let bookings' := st.bookings.map (fun x => if x.id = bookingId then b' else x)
          .ok ({ st with rides := rides', bookings := bookings' }, b')

/-- PUT /api/rides/:id/complete (rides router): the driver marks a
scheduled ride completed.  Inside one transaction: confirmed bookings of
the ride become completed, then pending ones become cancelled, the ride
becomes completed, and the drivers total_rides grows by one. -/
def completeRide (userId rideId : Nat) (st : St) : Except Err St :=
  match st.rides.find? (fun r => r.id == rideId && r.driver_id == userId) with
  | none => .error .notFound
  | some ride =>
    if ride.status ≠ .scheduled then .error .invalidState
    else
      let bookings1 := st.bookings.map (fun b =>
        if b.ride_id = rideId ∧ b.status = BookingStatus.confirmed then
          { b with status := BookingStatus.completed }
        else b)
      let bookings2 := bookings1.map (fun b =>
        if b.ride_id = rideId ∧ b.status = BookingStatus.pending then
          { b with status := BookingStatus.cancelled }
        else b)
      let rides' := st.rides.map (fun r =>
        if r.id = rideId then { r with status := RideStatus.completed } else r)
      let profiles' := st.profiles.map (fun p =>
        if p.user_id = userId then { p with total_rides := p.total_rides + 1 } else p)
      .ok { st with bookings := bookings2, rides := rides', profiles := profiles' }

/-- DELETE /api/rides/:id (rides router): the driver cancels a ride.
Inside one transaction: every booking of the ride that is not already
cancelled becomes cancelled (with no seat release), and the ride becomes
cancelled.  There is no check of the current ride status. -/
def cancelRide (userId rideId : Nat) (st : St) : Except Err St :=
  match st.rides.find? (fun r => r.id == rideId && r.driver_id == userId) with
  | none => .error .notFound
  | some _ =>
    let bookings' := st.bookings.map (fun b =>
      if b.ride_id = rideId ∧ b.status ≠ BookingStatus.cancelled then
        { b with status := BookingStatus.cancelled }
      else b)
    let rides' := st.rides.map (fun r =>
      if r.id = rideId then { r with status := RideStatus.cancelled } else r)
    .ok { st with bookings := bookings', rides := rides' }

/-- Aggregate written back by the rating recomputation queries: the SQL
ROUND(AVG(rating)::numeric, 2) over the reviews of a reviewee, and 0 when
no rows remain (AVG is NULL there; the delete handler coalesces it with
|| 0, and the create and update handlers always run with at least one
review present). -/
def recomputedRating (reviews : List Review) (revieweeId : Nat) : ℚ :=
  let rs := (reviews.filter (fun v => v.reviewee_id == revieweeId)).map (·.rating)
  if rs.isEmpty then 0 else sqlRound2 ((rs.sum : ℚ) / rs.length)

/-- POST /api/reviews (reviews router): create a review of the other
party of a completed booking, then recompute the reviewees aggregate
rating over all of that reviewees reviews and write it to the driver
profile (a no-op when the reviewee has no driver profile row). -/
def createReview (userId bookingId revieweeId : Nat) (rating : Int)
    (comment : Option String) (st : St) : Except Err (St × Review) :=
  if rating = 0 then .error .validation
  else if rating < 1 ∨ 5 < rating then .error .validation
  else
    match st.bookings.find?
        (fun b => b.id == bookingId && b.status == BookingStatus.completed) with
    | none => .error .notFound
    | some booking =>
      match st.rides.find? (fun r => r.id == booking.ride_id) with
      | none => .error .notFound
      | some ride =>
        let isDriver := ride.driver_id = userId
        let isPassenger := booking.passenger_id = userId
        if ¬ isDriver ∧ ¬ isPassenger then .error .forbidden
        else if isDriver ∧ revieweeId ≠ booking.passenger_id then .error .validation
        else if isPassenger ∧ revieweeId ≠ ride.driver_id then .error .validation
        else if (st.reviews.find?
            (fun v => v.booking_id == bookingId && v.reviewer_id == userId)).isSome then
          .error .conflict
        else
          let v : Review :=
            { id := freshId (st.reviews.map (·.id)),
              booking_id := bookingId,
              reviewer_id := userId,
              reviewee_id := revieweeId,
              rating := rating,
              comment := comment }
          let reviews' := st.reviews ++ [v]
          let newRating := recomputedRating reviews' revieweeId
          let profiles' := st.profiles.map (fun p =>
            if p.user_id = revieweeId then { p with rating := newRating } else p)
          .ok ({ st with reviews := reviews', profiles := profiles' }, v)

/-- PUT /api/reviews/:id (reviews router): the reviewer edits rating or
comment.  A rating of 0 is falsy in the source and counts as absent; when
a rating is given it must be 1..5 and triggers the aggregate
recomputation for the reviewee, a comment-only edit does not. -/
def updateReview (userId reviewId : Nat) (rating : Option Int)
    (comment : Option String) (st : St) : Except Err (St × Review) :=
  match st.reviews.find? (fun v => v.id == reviewId && v.reviewer_id == userId) with
  | none => .error .notFound
  | some v =>
    let ratingGiven := rating.getD 0 ≠ 0
    if ratingGiven ∧ (rating.getD 0 < 1 ∨ 5 < rating.getD 0) then .error .validation
    else if ¬ ratingGiven ∧ comment = none then .error .validation
    else
      let v' : Review := { v with
        rating := if ratingGiven then rating.getD 0 else v.rating,
        comment := if comment = none then v.comment else comment }
      let reviews' := st.reviews.map (fun x => if x.id = reviewId then v' else x)
      let profiles' :=
        if ratingGiven then
          st.profiles.map (fun p =>
            if p.user_id = v.reviewee_id then
              { p with rating := recomputedRating reviews' v.reviewee_id }
            else p)
        else st.profiles
      .ok ({ st with reviews := reviews', profiles := profiles' }, v')

/-- DELETE /api/reviews/:id (reviews router): the reviewer deletes the
review, then the reviewees aggregate is recomputed over the remaining
reviews, coalescing to 0 when none remain. -/
def deleteReview (userId reviewId : Nat) (st : St) : Except Err St :=
  match st.reviews.find? (fun v => v.id == reviewId && v.reviewer_id == userId) with
  | none => .error .notFound
  | some v =>
    let reviews' := st.reviews.filter (fun x => !(x.id == reviewId))
    let newRating := recomputedRating reviews' v.reviewee_id
    let profiles' := st.profiles.map (fun p =>
      if p.user_id = v.reviewee_id then { p with rating := newRating } else p)
    .ok { st with reviews := reviews', profiles := profiles' }

/-- States reachable from the empty store by successful core operations
(profile creation, ride create and update, booking create and status
update, ride complete and cancel, review create, update and delete);
a failing operation leaves the store untouched and so adds no state. -/
inductive Reachable : St → Prop
  | init : Reachable St.empty
  | profileStep {st st' : St} {u : Nat} {cs : Int} {p : DriverProfile} :
      Reachable st → createDriverProfile u cs st = .ok (st', p) → Reachable st'
  | rideStep {st st' : St} {now : Int} {u : Nat} {dep : DepartureTime}
      {seats : Int} {price dist : ℚ} {r : Ride} :
      Reachable st → createRide now u dep seats price dist st = .ok (st', r) →
      Reachable st'
  | rideUpdStep {st st' : St} {u rid : Nat} {dep av : Option Int} {pr : Option ℚ}
      {stt : Option RideStatus} {r : Ride} :
      Reachable st → updateRide u rid dep av pr stt st = .ok (st', r) →
      Reachable st'
  | bookingStep {st st' : St} {now : Int} {u rid : Nat} {seats : Int}
      {pk dp : Option String} {b : Booking} :
      Reachable st → createBooking now u rid seats pk dp st = .ok (st', b) →
      Reachable st'
  | bookingStatusStep {st st' : St} {u bid : Nat} {s : BookingStatus} {b : Booking} :
      Reachable st → updateBookingStatus u bid s st = .ok (st', b) → Reachable st'
  | completeStep {st st' : St} {u rid : Nat} :
      Reachable st → completeRide u rid st = .ok st' → Reachable st'
  | cancelStep {st st' : St} {u rid : Nat} :
      Reachable st → cancelRide u rid st = .ok st' → Reachable st'
  | reviewStep {st st' : St} {u bid rv : Nat} {rt : Int} {c : Option String}
      {v : Review} :
      Reachable st → createReview u bid rv rt c st = .ok (st', v) → Reachable st'
  | reviewUpdStep {st st' : St} {u vid : Nat} {rt : Option Int} {c : Option String}
      {v : Review} :
      Reachable st → updateReview u vid rt c st = .ok (st', v) → Reachable st'
  | reviewDelStep {st st' : St} {u vid : Nat} :
      Reachable st → deleteReview u vid st = .ok st' → Reachable st'

/-- Lookup of a ride row by primary key. -/
def getRide (st : St) (rideId : Nat) : Option Ride :=
  st.rides.find? (fun r => r.id == rideId)

/-- Inductive invariant carried through Reachable: available seats never
negative, every booking claims at least one seat, and ride ids are
distinct (SERIAL primary key). -/
def seatsOk (st : St) : Prop :=
  (∀ r ∈ st.rides, 0 ≤ r.available_seats) ∧
  (∀ b ∈ st.bookings, 1 ≤ b.seats_booked) ∧
  (st.rides.map Ride.id).Nodup

/- Concrete rows and stores used to instantiate the theorems below. -/

def depA : DepartureTime := ⟨"2099-01-01T12:00", 0, 5⟩

def profA : DriverProfile := { user_id := 1, car_seats := 4, rating := 0, total_rides := 0 }

def rideA : Ride :=
  { id := 1,
    driver_id := 1,
    departure_time := 5,
    total_seats := 3,
    available_seats := 3,
    price_per_seat := 1,
    traffic_fee := 0,
    status := .scheduled }

def stP : St := ⟨[], [], [profA], []⟩

def stR : St := ⟨[rideA], [], [profA], []⟩

def rideA100 : Ride := { rideA with available_seats := 100 }

def stU : St := ⟨[rideA100], [], [profA], []⟩

def rideA1 : Ride := { rideA with available_seats := 1 }

def bookA : Booking :=
  { id := 1,
    ride_id := 1,
    passenger_id := 2,
    seats_booked := 2,
    total_price := 2,
    status := .pending,
    pickup_location := none,
    dropoff_location := none }

def stR2 : St := ⟨[rideA1], [bookA], [profA], []⟩

def bookConf : Booking := { bookA with seats_booked := 1, total_price := 1, status := .confirmed }

def bookPend : Booking :=
  { id := 2,
    ride_id := 1,
    passenger_id := 3,
    seats_booked := 1,
    total_price := 1,
    status := .pending,
    pickup_location := none,
    dropoff_location := none }

def stC : St := ⟨[rideA], [bookConf, bookPend], [profA], []⟩

def bookCanc : Booking := { bookConf with status := .cancelled }

def stCanc : St := ⟨[rideA], [bookCanc], [profA], []⟩

def bookComp : Booking := { bookConf with status := .completed }

def stComp : St := ⟨[rideA], [bookComp], [profA], []⟩

def profD : DriverProfile := { user_id := 1, car_seats := 4, rating := 4, total_rides := 0 }

def rev1 : Review := { id := 1, booking_id := 1, reviewer_id := 2, reviewee_id := 1, rating := 5, comment := none }

def rev2 : Review := { id := 2, booking_id := 2, reviewer_id := 3, reviewee_id := 1, rating := 4, comment := none }

def rev3 : Review := { id := 3, booking_id := 3, reviewer_id := 4, reviewee_id := 1, rating := 3, comment := none }

def stRev : St := ⟨[], [], [profD], [rev1, rev2, rev3]⟩

lemma le_foldr_max {ids : List Nat} {i : Nat} (h : i ∈ ids) : i ≤ ids.foldr max 0 := by
  induction ids with
  | nil => cases h
  | cons x xs ih =>
    rcases List.mem_cons.mp h with rfl | hmem
    · exact le_max_left _ _
    · exact (ih hmem).trans (le_max_right _ _)

lemma freshId_not_mem (ids : List Nat) : freshId ids ∉ ids := by
  intro h
  exact absurd (le_foldr_max h) (by simp [freshId])

lemma find?_eq_some_of_unique {α : Type} {l : List α} {p : α → Bool} {a : α}
    (ha : a ∈ l) (hpa : p a = true)
    (huniq : ∀ x ∈ l, p x = true → x = a) :
    l.find? p = some a := by
  induction l with
  | nil => cases ha
  | cons x xs ih =>
    by_cases hx : p x = true
    · have hxa : x = a := huniq x (List.mem_cons_self x xs) hx
      subst hxa
      exact List.find?_cons_of_pos xs hpa
    · rw [List.find?_cons_of_neg xs hx]
      rcases List.mem_cons.mp ha with rfl | hmem
      · exact absurd hpa hx
      · exact ih hmem (fun y hy hpy => huniq y (List.mem_cons_of_mem x hy) hpy)

lemma find?_map_pred {α : Type} {l : List α} {p : α → Bool} {f : α → α}
    (hp : ∀ x, p (f x) = p x) :
    (l.map f).find? p = (l.find? p).map f := by
  rw [List.find?_map]
  have hpf : p ∘ f = p := funext hp
  rw [hpf]

lemma getRide_eq_of_nodup {st : St} {rid : Nat} {r : Ride}
    (hnd : (st.rides.map Ride.id).Nodup) (hr : r ∈ st.rides) (hid : r.id = rid) :
    getRide st rid = some r := by
  refine find?_eq_some_of_unique hr (by simp [hid]) ?_
  intro x hx hpx
  exact List.inj_on_of_nodup_map hnd hx hr (by simpa [hid] using hpx)

lemma mem_map_of_forall {α : Type} {P : α → Prop} {l : List α} {f : α → α}
    (hf : ∀ x ∈ l, P (f x)) : ∀ y ∈ l.map f, P y := by
  intro y hy
  rcases List.mem_map.mp hy with ⟨x, hx, rfl⟩
  exact hf x hx

lemma nodup_ids_map {l : List Ride} {f : Ride → Ride} (hf : ∀ x, (f x).id = x.id)
    (h : (l.map Ride.id).Nodup) : ((l.map f).map Ride.id).Nodup := by
  rw [List.map_map]
  have hc : (Ride.id ∘ f) = Ride.id := funext hf
  rw [hc]
  exact h

lemma createDriverProfile_seatsOk {u : Nat} {cs : Int} {st st' : St} {p : DriverProfile}
    (h : createDriverProfile u cs st = .ok (st', p)) (hI : seatsOk st) : seatsOk st' := by
  unfold createDriverProfile at h
  split at h
  · cases h
  · split at h
    · cases h
    · split at h
      · cases h
      · simp only [Except.ok.injEq, Prod.mk.injEq] at h
        obtain ⟨rfl, rfl⟩ := h
        exact hI

lemma createRide_seatsOk {now : Int} {u : Nat} {dep : DepartureTime} {seats : Int}
    {price dist : ℚ} {st st' : St} {r : Ride}
    (h : createRide now u dep seats price dist st = .ok (st', r))
    (hI : seatsOk st) : seatsOk st' := by
  unfold createRide at h
  split at h
  · cases h
  · split at h
    · cases h
    · split at h
      next => cases h
      next hseats =>
        split at h
        · cases h
        · split at h
          · cases h
          · split at h
            · cases h
            · simp only [Except.ok.injEq, Prod.mk.injEq] at h
              obtain ⟨rfl, rfl⟩ := h
              refine ⟨?_, hI.2.1, ?_⟩
              · intro x hx
                rcases List.mem_append.mp hx with hx | hx
                · exact hI.1 x hx
                · rcases List.mem_singleton.mp hx with rfl
                  show (0 : Int) ≤ seats
                  omega
              · rw [List.map_append]
                rw [List.nodup_append]
                refine ⟨hI.2.2, List.nodup_singleton _, ?_⟩
                simp only [List.map_cons, List.map_nil, List.disjoint_singleton]
                exact freshId_not_mem _

lemma updateRide_seatsOk {u rid : Nat} {dep av : Option Int} {pr : Option ℚ}
    {stt : Option RideStatus} {st st' : St} {r : Ride}
    (h : updateRide u rid dep av pr stt st = .ok (st', r))
    (hI : seatsOk st) : seatsOk st' := by
  unfold updateRide at h
  split at h
  · cases h
  next ride hfind =>
    split at h
    · cases h
    · dsimp only at h
      split at h
      next => cases h
      next hchk =>
        simp only [Except.ok.injEq, Prod.mk.injEq] at h
        obtain ⟨rfl, rfl⟩ := h
        refine ⟨?_, hI.2.1, ?_⟩
        · apply mem_map_of_forall
          intro x hx
          by_cases hxid : x.id = rid
          · simp only [hxid, if_true]
            omega
          · simp only [hxid, if_false]
            exact hI.1 x hx
        · apply nodup_ids_map ?_ hI.2.2
          intro x
          by_cases hxid : x.id = rid
          · simp only [hxid, if_true]
            have hr_eq : ride.id = rid := by
              have := List.find?_some hfind
              simp at this
              exact this.1
            simp [hxid, hr_eq]
          · simp only [hxid, if_false]

lemma createBooking_seatsOk {now : Int} {u rid : Nat} {seats : Int}
    {pk dp : Option String} {st st' : St} {b' : Booking}
    (h : createBooking now u rid seats pk dp st = .ok (st', b'))
    (hI : seatsOk st) : seatsOk st' := by
  unfold createBooking at h
  split at h
  next => cases h
  next hseats =>
    split at h
    · cases h
    next ride hfind =>
      split at h
      next => cases h
      next hdep =>
        split at h
        next => cases h
        next hdrv =>
          split at h
          next => cases h
          next hcap =>
            dsimp only at h
            have hmem : ride ∈ st.rides := List.mem_of_find?_eq_some hfind
            have hridid : ride.id = rid := by
              have hp := List.find?_some hfind
              simp at hp
              exact hp.1
            have hrides : ∀ x ∈ st.rides.map (fun r =>
                if r.id = rid then
                  { r with available_seats := r.available_seats - seats }
                else r), 0 ≤ x.available_seats := by
              apply mem_map_of_forall
              intro x hx
              by_cases hxid : x.id = rid
              · have hx_eq : x = ride := by
                  apply List.inj_on_of_nodup_map hI.2.2 hx hmem
                  rw [hxid, hridid]
                subst hx_eq
                simp only [hxid, if_true]
                omega
              · simp only [hxid, if_false]
                exact hI.1 x hx
            have hnodup : (((st.rides.map (fun r =>
                if r.id = rid then
                  { r with available_seats := r.available_seats - seats }
                else r))).map Ride.id).Nodup := by
              apply nodup_ids_map ?_ hI.2.2
              intro x
              by_cases hxid : x.id = rid
              · simp only [hxid, if_true]
              · simp only [hxid, if_false]
            split at h
            next b0 hex =>
              split at h
              next => cases h
              next hstat =>
                simp only [Except.ok.injEq, Prod.mk.injEq] at h
                obtain ⟨rfl, rfl⟩ := h
                refine ⟨hrides, ?_, hnodup⟩
                apply mem_map_of_forall
                intro x hx
                by_cases hxid : x.id = b0.id
                · simp only [hxid, if_true]
                  show (1 : Int) ≤ seats
                  omega
                · simp only [hxid, if_false]
                  exact hI.2.1 x hx
            next hex =>
              simp only [Except.ok.injEq, Prod.mk.injEq] at h
              obtain ⟨rfl, rfl⟩ := h
              refine ⟨hrides, ?_, hnodup⟩
              intro x hx
              rcases List.mem_append.mp hx with hx | hx
              · exact hI.2.1 x hx
              · rcases List.mem_singleton.mp hx with rfl
                show (1 : Int) ≤ seats
                omega

lemma updateBookingStatus_seatsOk {u bid : Nat} {s : BookingStatus} {st st' : St}
    {b' : Booking} (h : updateBookingStatus u bid s st = .ok (st', b'))
    (hI : seatsOk st) : seatsOk st' := by
  unfold updateBookingStatus at h
  split at h
  · cases h
  · split at h
    · cases h
    next b0 hb0 =>
      split at h
      · cases h
      next ride hr =>
        dsimp only at h
        split at h
        · cases h
        · split at h
          · cases h
          · simp only [Except.ok.injEq, Prod.mk.injEq] at h
            obtain ⟨rfl, rfl⟩ := h
            have hb0mem : b0 ∈ st.bookings := List.mem_of_find?_eq_some hb0
            have hb0seats : 1 ≤ b0.seats_booked := hI.2.1 b0 hb0mem
            refine ⟨?_, ?_, ?_⟩
            · split
              · apply mem_map_of_forall
                intro x hx
                by_cases hxid : x.id = b0.ride_id
                · simp only [hxid, if_true]
                  have := hI.1 x hx
                  omega
                · simp only [hxid, if_false]
                  exact hI.1 x hx
              · exact hI.1
            · apply mem_map_of_forall
              intro x hx
              by_cases hxid : x.id = bid
              · simp only [hxid, if_true]
                exact hb0seats
              · simp only [hxid, if_false]
                exact hI.2.1 x hx
            · split
              · apply nodup_ids_map ?_ hI.2.2
                intro x
                by_cases hxid : x.id = b0.ride_id
                · simp only [hxid, if_true]
                · simp only [hxid, if_false]
              · exact hI.2.2

lemma completeRide_seatsOk {u rid : Nat} {st st' : St}
    (h : completeRide u rid st = .ok st') (hI : seatsOk st) : seatsOk st' := by
  unfold completeRide at h
  split at h
  · cases h
  next ride hfind =>
    split at h
    · cases h
    · dsimp only at h
      simp only [Except.ok.injEq] at h
      subst h
      refine ⟨?_, ?_, ?_⟩
      · apply mem_map_of_forall
        intro x hx
        split
        · exact hI.1 x hx
        · exact hI.1 x hx
      · apply mem_map_of_forall
        intro y hy
        rcases List.mem_map.mp hy with ⟨x, hx, rfl⟩
        have hxs := hI.2.1 x hx
        split
        · split <;> exact hxs
        · split <;> exact hxs
      · apply nodup_ids_map ?_ hI.2.2
        intro x
        split <;> rfl

lemma cancelRide_seatsOk {u rid : Nat} {st st' : St}
    (h : cancelRide u rid st = .ok st') (hI : seatsOk st) : seatsOk st' := by
  unfold cancelRide at h
  split at h
  · cases h
  · dsimp only at h
    simp only [Except.ok.injEq] at h
    subst h
    refine ⟨?_, ?_, ?_⟩
    · apply mem_map_of_forall
      intro x hx
      split
      · exact hI.1 x hx
      · exact hI.1 x hx
    · apply mem_map_of_forall
      intro x hx
      split
      · exact hI.2.1 x hx
      · exact hI.2.1 x hx
    · apply nodup_ids_map ?_ hI.2.2
      intro x
      split <;> rfl

lemma createReview_seatsOk {u bid rv : Nat} {rt : Int} {c : Option String}
    {st st' : St} {v : Review} (h : createReview u bid rv rt c st = .ok (st', v))
    (hI : seatsOk st) : seatsOk st' := by
  unfold createReview at h
  split at h
  · cases h
  · split at h
    · cases h
    · split at h
      · cases h
      · split at h
        · cases h
        · dsimp only at h
          split at h
          · cases h
          · split at h
            · cases h
            · split at h
              · cases h
              · split at h
                · cases h
                · simp only [Except.ok.injEq, Prod.mk.injEq] at h
                  obtain ⟨rfl, rfl⟩ := h
                  exact hI

lemma updateReview_seatsOk {u vid : Nat} {rt : Option Int} {c : Option String}
    {st st' : St} {v' : Review} (h : updateReview u vid rt c st = .ok (st', v'))
    (hI : seatsOk st) : seatsOk st' := by
  unfold updateReview at h
  split at h
  · cases h
  · dsimp only at h
    split at h
    · cases h
    · split at h
      · cases h
      · simp only [Except.ok.injEq, Prod.mk.injEq] at h
        obtain ⟨rfl, rfl⟩ := h
        exact hI

lemma deleteReview_seatsOk {u vid : Nat} {st st' : St}
    (h : deleteReview u vid st = .ok st') (hI : seatsOk st) : seatsOk st' := by
  unfold deleteReview at h
  split at h
  · cases h
  · dsimp only at h
    simp only [Except.ok.injEq] at h
    subst h
    exact hI

lemma reachable_seatsOk {st : St} (h : Reachable st) : seatsOk st := by
  induction h with
  | init =>
    exact ⟨(by intro r hr; cases hr), (by intro b hb; cases hb), (by simp [St.empty])⟩
  | profileStep _ hop ih => exact createDriverProfile_seatsOk hop ih
  | rideStep _ hop ih => exact createRide_seatsOk hop ih
  | rideUpdStep _ hop ih => exact updateRide_seatsOk hop ih
  | bookingStep _ hop ih => exact createBooking_seatsOk hop ih
  | bookingStatusStep _ hop ih => exact updateBookingStatus_seatsOk hop ih
  | completeStep _ hop ih => exact completeRide_seatsOk hop ih
  | cancelStep _ hop ih => exact cancelRide_seatsOk hop ih
  | reviewStep _ hop ih => exact createReview_seatsOk hop ih
  | reviewUpdStep _ hop ih => exact updateReview_seatsOk hop ih
  | reviewDelStep _ hop ih => exact deleteReview_seatsOk hop ih

/-- C6: the traffic fee function is pure, and for every departure
timestamp and distance the fee is round(distanceKm * 0.05, 2 decimals)
exactly when the extracted local hour (read from the string when it
contains a T and no trailing Z, otherwise the UTC hour plus 3 modulo 24)
lies in [7,9) or [16,18), and 0 otherwise; distance 25 at local hour 7
gives 1.25 and at local hour 12 gives 0. -/
theorem calculateTrafficFee_spec :
    (∀ (t : DepartureTime) (d : ℚ),
      calculateTrafficFee t d =
        if isPeakHour (extractHour t) then round2 (d * (5 / 100)) else 0) ∧
    calculateTrafficFee ⟨"2026-01-06T07:30", 0, 0⟩ 25 = 125 / 100 ∧
    calculateTrafficFee ⟨"2026-01-06T12:00", 0, 0⟩ 25 = 0 := by
  refine ⟨fun t d => ?_, ?_, ?_⟩
  · unfold calculateTrafficFee
    by_cases hd : d = 0
    · subst hd
      have h0 : round2 0 = 0 := by
        rw [round2, round_eq]
        norm_num
      simp [h0]
    · simp [hd]
  · have h7 : extractHour ⟨"2026-01-06T07:30", 0, 0⟩ = 7 := by decide
    rw [calculateTrafficFee, if_neg (by norm_num), h7, if_pos (by decide),
      round2, round_eq]
    norm_num
  · have h12 : extractHour ⟨"2026-01-06T12:00", 0, 0⟩ = 12 := by decide
    rw [calculateTrafficFee, if_neg (by norm_num), h12, if_neg (by decide)]

/-- C2 counterexample: the invariant available_seats <= total_seats does
not hold in every reachable state: create a driver profile, create a ride
with 3 seats, then update the ride setting available_seats to 100 (the
ride update endpoint performs no check against total_seats), giving a
reachable state whose ride has available_seats 100 > total_seats 3. -/
theorem seatInvariant_upper_bound_cex :
    ∃ st, Reachable st ∧ ∃ r ∈ st.rides, r.total_seats < r.available_seats := by
  refine ⟨stU, ?_, rideA100, ?_, ?_⟩
  · have h1 : createDriverProfile 1 4 St.empty = .ok (stP, profA) := rfl
    have h2 : createRide 0 1 depA 3 1 0 stP = .ok (stR, rideA) := rfl
    have h3 : updateRide 1 1 none (some 100) none none stR = .ok (stU, rideA100) := rfl
    exact Reachable.rideUpdStep
      (Reachable.rideStep (Reachable.profileStep Reachable.init h1) h2) h3
  · exact List.mem_singleton_self _
  · decide

/-- C2 (amended): in every reachable state every ride satisfies the lower
bound 0 <= available_seats, and ride creation establishes
available_seats = total_seats (with at least one seat), so the full
invariant holds at creation; the upper bound available_seats <=
total_seats is not an invariant (see the counterexample). -/
theorem availableSeats_lower_bound :
    (∀ st, Reachable st → ∀ r ∈ st.rides, 0 ≤ r.available_seats) ∧
    (∀ (now : Int) (u : Nat) (dep : DepartureTime) (seats : Int) (price dist : ℚ)
        (st st' : St) (r : Ride),
      createRide now u dep seats price dist st = .ok (st', r) →
      r.available_seats = r.total_seats ∧ 1 ≤ r.available_seats ∧ r ∈ st'.rides) := by
  constructor
  · intro st h r hr
    exact (reachable_seatsOk h).1 r hr
  · intro now u dep seats price dist st st' r h
    unfold createRide at h
    split at h
    · cases h
    · split at h
      · cases h
      · split at h
        next => cases h
        next hseats =>
          split at h
          · cases h
          · split at h
            · cases h
            · split at h
              · cases h
              · simp only [Except.ok.injEq, Prod.mk.injEq] at h
                obtain ⟨rfl, rfl⟩ := h
                refine ⟨rfl, ?_, ?_⟩
                · show (1 : Int) ≤ seats
                  omega
                · exact List.mem_append_right _ (List.mem_singleton_self _)

/-- Witness for the amended C2 theorem at a concrete reachable state. -/
theorem availableSeats_lower_bound_witness :
    (0 : Int) ≤ rideA.available_seats ∧ rideA.available_seats = rideA.total_seats := by
  have h1 : createDriverProfile 1 4 St.empty = .ok (stP, profA) := rfl
  have h2 : createRide 0 1 depA 3 1 0 stP = .ok (stR, rideA) := rfl
  exact ⟨availableSeats_lower_bound.1 stR
      (Reachable.rideStep (Reachable.profileStep Reachable.init h1) h2) rideA
      (List.mem_singleton_self _),
    (availableSeats_lower_bound.2 0 1 depA 3 1 0 stP stR rideA h2).1⟩

lemma find?_map_ite_key {l : List Ride} {rid : Nat} {ride : Ride} (upd : Ride → Ride)
    (hnd : (l.map Ride.id).Nodup) (hmem : ride ∈ l) (hid : ride.id = rid)
    (hupd : ∀ x, (upd x).id = x.id) :
    (l.map (fun r => if r.id = rid then upd r else r)).find?
      (fun r => r.id == rid) = some (upd ride) := by
  rw [find?_map_pred]
  · have hfound : l.find? (fun r => r.id == rid) = some ride := by
      refine find?_eq_some_of_unique hmem (by simp [hid]) ?_
      intro x hx hpx
      exact List.inj_on_of_nodup_map hnd hx hmem (by simpa [hid] using hpx)
    rw [hfound]
    simp [hid]
  · intro x
    by_cases hxid : x.id = rid
    · simp [hxid, hupd]
    · simp [hxid]

/-- C1: under the documented preconditions (ride exists and is scheduled,
departure in the future, requester is not the driver, seats in 1..8, no
prior pending or confirmed booking of this passenger on this ride),
createBooking succeeds exactly when available_seats >= seats, storing a
pending booking with that seat count and decrementing the ride row by
exactly that count; with available_seats < seats it reports the
insufficient-seats outcome, and since every validation failure returns
before the transaction commits anything, an error result leaves the
store unchanged. -/
theorem createBooking_capacity_spec
    (now : Int) (u rid : Nat) (seats : Int) (pk dp : Option String)
    (st : St) (ride : Ride)
    (hnd : (st.rides.map Ride.id).Nodup)
    (hfind : st.rides.find?
      (fun r => r.id == rid && r.status == RideStatus.scheduled) = some ride)
    (hdep : now < ride.departure_time)
    (hdrv : ride.driver_id ≠ u)
    (hs1 : 1 ≤ seats) (hs8 : seats ≤ 8)
    (hnb : ∀ b ∈ st.bookings, b.ride_id = rid → b.passenger_id = u →
      b.status ≠ BookingStatus.pending ∧ b.status ≠ BookingStatus.confirmed) :
    (seats ≤ ride.available_seats →
      ∃ st' b', createBooking now u rid seats pk dp st = .ok (st', b') ∧
        b'.status = BookingStatus.pending ∧ b'.seats_booked = seats ∧
        b'.ride_id = rid ∧ b'.passenger_id = u ∧ b' ∈ st'.bookings ∧
        getRide st' rid =
          some { ride with available_seats := ride.available_seats - seats }) ∧
    (ride.available_seats < seats →
      createBooking now u rid seats pk dp st = .error Err.insufficientSeats) := by
  have hmem : ride ∈ st.rides := List.mem_of_find?_eq_some hfind
  have hrid : ride.id = rid := by
    have hp := List.find?_some hfind
    simp at hp
    exact hp.1
  constructor
  · intro hcap
    unfold createBooking
    rw [if_neg (by omega), hfind]
    dsimp only
    rw [if_neg (by omega), if_neg hdrv, if_neg (by omega)]
    rcases hex : st.bookings.find?
        (fun b => b.ride_id == rid && b.passenger_id == u) with _ | b0
    · rw [hex]
      dsimp only
      refine ⟨_, _, rfl, rfl, rfl, rfl, rfl, ?_, ?_⟩
      · exact List.mem_append_right _ (List.mem_singleton_self _)
      · exact find?_map_ite_key _ hnd hmem hrid (fun x => rfl)
    · rw [hex]
      dsimp only
      have hb0mem : b0 ∈ st.bookings := List.mem_of_find?_eq_some hex
      have hb0p := List.find?_some hex
      simp at hb0p
      obtain ⟨hb0rid, hb0pass⟩ := hb0p
      have hb0stat := hnb b0 hb0mem hb0rid hb0pass
      rw [if_neg (by tauto)]
      refine ⟨_, _, rfl, rfl, rfl, hb0rid, hb0pass, ?_, ?_⟩
      · refine List.mem_map.mpr ⟨b0, hb0mem, ?_⟩
        simp
      · exact find?_map_ite_key _ hnd hmem hrid (fun x => rfl)
  · intro hlt
    unfold createBooking
    rw [if_neg (by omega), hfind]
    dsimp only
    rw [if_neg (by omega), if_neg hdrv, if_pos hlt]

/-- Witness for C1 at the example of the spec: a ride with total_seats 3
and available_seats 3 accepts a 2-seat booking, and a second 2-seat
request on the resulting state (available_seats 1) is rejected with the
insufficient-seats outcome. -/
theorem createBooking_capacity_spec_witness :
    (∃ st' b', createBooking 0 2 1 2 none none stR = .ok (st', b') ∧
      b'.status = BookingStatus.pending ∧ b'.seats_booked = 2 ∧
      b'.ride_id = 1 ∧ b'.passenger_id = 2 ∧ b' ∈ st'.bookings ∧
      getRide st' 1 = some { rideA with available_seats := 1 }) ∧
    createBooking 0 3 1 2 none none stR2 = .error Err.insufficientSeats := by
  constructor
  · exact (createBooking_capacity_spec 0 2 1 2 none none stR rideA
      (by decide) (by decide) (by decide) (by decide) (by decide) (by decide)
      (by decide)).1 (by decide)
  · exact (createBooking_capacity_spec 0 3 1 2 none none stR2 rideA1
      (by decide) (by decide) (by decide) (by decide) (by decide) (by decide)
      (by decide)).2 (by decide)

/-- C3: completeRide invoked by the driver on a scheduled ride moves
every confirmed booking of the ride to completed and every pending one to
cancelled (all other bookings unchanged), sets the ride to completed,
increments the drivers total_rides by exactly one, and a second
invocation on the resulting state — like any invocation on a ride that is
not scheduled — is rejected with the state-conflict outcome; the embedded
transaction applies the whole cascade or, on a rejection, nothing. -/
theorem completeRide_spec
    (u rid : Nat) (st : St) (ride : Ride)
    (hnd : (st.rides.map Ride.id).Nodup)
    (hfind : st.rides.find? (fun r => r.id == rid && r.driver_id == u) = some ride)
    (hsched : ride.status = RideStatus.scheduled) :
    (∃ st', completeRide u rid st = .ok st' ∧
      (∀ b ∈ st.bookings, b.ride_id = rid → b.status = BookingStatus.confirmed →
        { b with status := BookingStatus.completed } ∈ st'.bookings) ∧
      (∀ b ∈ st.bookings, b.ride_id = rid → b.status = BookingStatus.pending →
        { b with status := BookingStatus.cancelled } ∈ st'.bookings) ∧
      (∀ b ∈ st.bookings,
        b.ride_id ≠ rid ∨
          (b.status ≠ BookingStatus.confirmed ∧ b.status ≠ BookingStatus.pending) →
        b ∈ st'.bookings) ∧
      getRide st' rid = some { ride with status := RideStatus.completed } ∧
      (∀ p ∈ st.profiles, p.user_id = u →
        { p with total_rides := p.total_rides + 1 } ∈ st'.profiles) ∧
      (∀ p ∈ st.profiles, p.user_id ≠ u → p ∈ st'.profiles) ∧
      completeRide u rid st' = .error Err.invalidState) ∧
    (∀ (st2 : St) (r2 : Ride),
      st2.rides.find? (fun r => r.id == rid && r.driver_id == u) = some r2 →
      r2.status ≠ RideStatus.scheduled →
      completeRide u rid st2 = .error Err.invalidState) := by
  have hmem : ride ∈ st.rides := List.mem_of_find?_eq_some hfind
  have hp := List.find?_some hfind
  simp at hp
  obtain ⟨hrid, hdrv⟩ := hp
  have hreject : ∀ (st2 : St) (r2 : Ride),
      st2.rides.find? (fun r => r.id == rid && r.driver_id == u) = some r2 →
      r2.status ≠ RideStatus.scheduled →
      completeRide u rid st2 = .error Err.invalidState := by
    intro st2 r2 h2 hns
    unfold completeRide
    rw [h2]
    dsimp only
    rw [if_pos hns]
  refine ⟨?_, hreject⟩
  unfold completeRide
  rw [hfind]
  dsimp only
  rw [if_neg (by simp [hsched])]
  refine ⟨_, rfl, ?_, ?_, ?_, ?_, ?_, ?_, ?_⟩
  · intro b hb hbrid hbstat
    have h1 : ({ b with status := BookingStatus.completed } : Booking) =
        (fun b2 => if b2.ride_id = rid ∧ b2.status = BookingStatus.pending then
          { b2 with status := BookingStatus.cancelled } else b2)
        ((fun b2 => if b2.ride_id = rid ∧ b2.status = BookingStatus.confirmed then
          { b2 with status := BookingStatus.completed } else b2) b) := by
      simp [hbrid, hbstat]
    rw [h1]
    exact List.mem_map.mpr ⟨_, List.mem_map.mpr ⟨b, hb, rfl⟩, rfl⟩
  · intro b hb hbrid hbstat
    have h1 : ({ b with status := BookingStatus.cancelled } : Booking) =
        (fun b2 => if b2.ride_id = rid ∧ b2.status = BookingStatus.pending then
          { b2 with status := BookingStatus.cancelled } else b2)
        ((fun b2 => if b2.ride_id = rid ∧ b2.status = BookingStatus.confirmed then
          { b2 with status := BookingStatus.completed } else b2) b) := by
      simp [hbrid, hbstat]
    rw [h1]
    exact List.mem_map.mpr ⟨_, List.mem_map.mpr ⟨b, hb, rfl⟩, rfl⟩
  · intro b hb hcond
    have h1 : b =
        (fun b2 => if b2.ride_id = rid ∧ b2.status = BookingStatus.pending then
          { b2 with status := BookingStatus.cancelled } else b2)
        ((fun b2 => if b2.ride_id = rid ∧ b2.status = BookingStatus.confirmed then
          { b2 with status := BookingStatus.completed } else b2) b) := by
      rcases hcond with hcond | ⟨hc1, hc2⟩
      · simp [hcond]
      · simp [hc1, hc2]
    rw [h1]
    exact List.mem_map.mpr ⟨_, List.mem_map.mpr ⟨b, hb, rfl⟩, rfl⟩
  · exact find?_map_ite_key _ hnd hmem hrid (fun x => rfl)
  · intro p hpmem hpu
    refine List.mem_map.mpr ⟨p, hpmem, ?_⟩
    simp [hpu]
  · intro p hpmem hpu
    refine List.mem_map.mpr ⟨p, hpmem, ?_⟩
    simp [hpu]
  · have hfind2 : (st.rides.map (fun r =>
        if r.id = rid then { r with status := RideStatus.completed } else r)).find?
        (fun r => r.id == rid && r.driver_id == u) =
        some { ride with status := RideStatus.completed } := by
      refine find?_eq_some_of_unique
        (List.mem_map.mpr ⟨ride, hmem, if_pos hrid⟩) (by simp [hrid, hdrv]) ?_
      intro x hx hpx
      rcases List.mem_map.mp hx with ⟨x0, hx0, rfl⟩
      have hxid : (if x0.id = rid then { x0 with status := RideStatus.completed }
          else x0).id = x0.id := by
        split <;> rfl
      rw [Bool.and_eq_true, beq_iff_eq, hxid] at hpx
      have hx0r : x0 = ride :=
        List.inj_on_of_nodup_map hnd hx0 hmem (by rw [hpx.1, hrid])
      subst hx0r
      rw [if_pos hpx.1]
    exact hreject _ _ hfind2 (by simp)

/-- Witness for C3 at a concrete scheduled ride with one confirmed and
one pending booking. -/
theorem completeRide_spec_witness :
    ∃ st', completeRide 1 1 stC = .ok st' ∧
      (∀ b ∈ stC.bookings, b.ride_id = 1 → b.status = BookingStatus.confirmed →
        { b with status := BookingStatus.completed } ∈ st'.bookings) ∧
      (∀ b ∈ stC.bookings, b.ride_id = 1 → b.status = BookingStatus.pending →
        { b with status := BookingStatus.cancelled } ∈ st'.bookings) ∧
      (∀ b ∈ stC.bookings,
        b.ride_id ≠ 1 ∨
          (b.status ≠ BookingStatus.confirmed ∧ b.status ≠ BookingStatus.pending) →
        b ∈ st'.bookings) ∧
      getRide st' 1 = some { rideA with status := RideStatus.completed } ∧
      (∀ p ∈ stC.profiles, p.user_id = 1 →
        { p with total_rides := p.total_rides + 1 } ∈ st'.profiles) ∧
      (∀ p ∈ stC.profiles, p.user_id ≠ 1 → p ∈ st'.profiles) ∧
      completeRide 1 1 st' = .error Err.invalidState :=
  (completeRide_spec 1 1 stC rideA (by decide) (by decide) (by decide)).1

/-- C9: driver-initiated ride cancellation sets every booking of the ride
that is not already cancelled to cancelled, leaves all other bookings
untouched, sets the ride (and only the ride) to status cancelled, and
changes no rides available_seats — no per-booking seat release happens;
the embedded transaction applies the whole cascade atomically. -/
theorem cancelRide_spec
    (u rid : Nat) (st : St) (ride : Ride)
    (hfind : st.rides.find? (fun r => r.id == rid && r.driver_id == u) = some ride) :
    ∃ st', cancelRide u rid st = .ok st' ∧
      (∀ b ∈ st.bookings, b.ride_id = rid → b.status ≠ BookingStatus.cancelled →
        { b with status := BookingStatus.cancelled } ∈ st'.bookings) ∧
      (∀ b ∈ st.bookings, b.ride_id ≠ rid ∨ b.status = BookingStatus.cancelled →
        b ∈ st'.bookings) ∧
      (∀ r ∈ st.rides, r.id = rid →
        { r with status := RideStatus.cancelled } ∈ st'.rides) ∧
      (∀ r ∈ st.rides, r.id ≠ rid → r ∈ st'.rides) ∧
      st'.rides.map (fun r => (r.id, r.available_seats)) =
        st.rides.map (fun r => (r.id, r.available_seats)) := by
  unfold cancelRide
  rw [hfind]
  dsimp only
  refine ⟨_, rfl, ?_, ?_, ?_, ?_, ?_⟩
  · intro b hb hbrid hbstat
    exact List.mem_map.mpr ⟨b, hb, by simp [hbrid, hbstat]⟩
  · intro b hb hcond
    refine List.mem_map.mpr ⟨b, hb, ?_⟩
    rcases hcond with hcond | hcond
    · simp [hcond]
    · simp [hcond]
  · intro r hr hrid
    exact List.mem_map.mpr ⟨r, hr, by simp [hrid]⟩
  · intro r hr hrid
    exact List.mem_map.mpr ⟨r, hr, by simp [hrid]⟩
  · rw [List.map_map]
    refine List.map_congr_left ?_
    intro a _
    show (fun r => (r.id, r.available_seats))
      (if a.id = rid then { a with status := RideStatus.cancelled } else a) = _
    split <;> rfl

/-- Witness for C9 at a concrete ride with one confirmed and one pending
booking. -/
theorem cancelRide_spec_witness :
    ∃ st', cancelRide 1 1 stC = .ok st' ∧
      (∀ b ∈ stC.bookings, b.ride_id = 1 → b.status ≠ BookingStatus.cancelled →
        { b with status := BookingStatus.cancelled } ∈ st'.bookings) ∧
      (∀ b ∈ stC.bookings, b.ride_id ≠ 1 ∨ b.status = BookingStatus.cancelled →
        b ∈ st'.bookings) ∧
      (∀ r ∈ stC.rides, r.id = 1 →
        { r with status := RideStatus.cancelled } ∈ st'.rides) ∧
      (∀ r ∈ stC.rides, r.id ≠ 1 → r ∈ st'.rides) ∧
      st'.rides.map (fun r => (r.id, r.available_seats)) =
        stC.rides.map (fun r => (r.id, r.available_seats)) :=
  cancelRide_spec 1 1 stC rideA (by decide)

/-- C4: cancelling a booking that is in any non-cancelled status gives
back exactly its seats_booked to the ride row; a status update to
confirmed or completed never touches the ride rows; and a later
createBooking by the same passenger reactivates the same booking row to
pending with the newly requested seat count and decrements
available_seats by exactly that new count — a fresh reservation computed
from the new request, not a delta against the old one. -/
theorem updateBookingStatus_release_spec :
    (∀ (u bid : Nat) (st : St) (b : Booking) (ride : Ride),
      st.bookings.find? (fun x => x.id == bid) = some b →
      st.rides.find? (fun r => r.id == b.ride_id) = some ride →
      (ride.driver_id = u ∨ b.passenger_id = u) →
      b.status ≠ BookingStatus.cancelled →
      ∃ st', updateBookingStatus u bid BookingStatus.cancelled st =
          .ok (st', { b with status := BookingStatus.cancelled }) ∧
        getRide st' b.ride_id =
          some { ride with
            available_seats := ride.available_seats + b.seats_booked }) ∧
    (∀ (u bid : Nat) (s : BookingStatus) (st st' : St) (b' : Booking),
      s = BookingStatus.confirmed ∨ s = BookingStatus.completed →
      updateBookingStatus u bid s st = .ok (st', b') →
      st'.rides = st.rides) ∧
    (∀ (now : Int) (u rid : Nat) (seats : Int) (pk dp : Option String)
        (st : St) (ride : Ride) (b0 : Booking),
      (st.rides.map Ride.id).Nodup →
      st.rides.find?
        (fun r => r.id == rid && r.status == RideStatus.scheduled) = some ride →
      now < ride.departure_time →
      ride.driver_id ≠ u →
      1 ≤ seats → seats ≤ 8 →
      seats ≤ ride.available_seats →
      st.bookings.find?
        (fun x => x.ride_id == rid && x.passenger_id == u) = some b0 →
      b0.status = BookingStatus.cancelled →
      ∃ st', createBooking now u rid seats pk dp st =
          .ok (st',
            { b0 with
              status := BookingStatus.pending,
              seats_booked := seats,
              total_price := ride.price_per_seat * seats + ride.traffic_fee,
              pickup_location := pk,
              dropoff_location := dp }) ∧
        getRide st' rid =
          some { ride with available_seats := ride.available_seats - seats }) := by
  refine ⟨?_, ?_, ?_⟩
  · intro u bid st b ride hb hr hauth hnc
    have hrideid : ride.id = b.ride_id := by
      have := List.find?_some hr
      simpa using this
    unfold updateBookingStatus
    rw [if_neg (by decide), hb]
    dsimp only
    rw [hr]
    dsimp only
    rw [if_neg (by tauto), if_neg (by simp), if_pos ⟨rfl, hnc⟩]
    refine ⟨_, rfl, ?_⟩
    unfold getRide
    rw [find?_map_pred ?_]
    · rw [hr]
      simp [hrideid]
    · intro x
      by_cases hxid : x.id = b.ride_id
      · simp [hxid]
      · simp [hxid]
  · intro u bid s st st' b' hs h
    unfold updateBookingStatus at h
    split at h
    · cases h
    · split at h
      · cases h
      next b0 hb0 =>
        split at h
        · cases h
        next ride hr0 =>
          dsimp only at h
          split at h
          · cases h
          · split at h
            · cases h
            · simp only [Except.ok.injEq, Prod.mk.injEq] at h
              obtain ⟨rfl, rfl⟩ := h
              show (if s = BookingStatus.cancelled ∧ b0.status ≠ BookingStatus.cancelled
                then _ else st.rides) = st.rides
              rw [if_neg]
              rcases hs with rfl | rfl <;> simp
  · intro now u rid seats pk dp st ride b0 hnd hfind hdep hdrv hs1 hs8 hcap hb0 hst
    have hmem : ride ∈ st.rides := List.mem_of_find?_eq_some hfind
    have hrid : ride.id = rid := by
      have hp := List.find?_some hfind
      simp at hp
      exact hp.1
    unfold createBooking
    rw [if_neg (by omega), hfind]
    dsimp only
    rw [if_neg (by omega), if_neg hdrv, if_neg (by omega), hb0]
    dsimp only
    rw [if_neg (by simp [hst])]
    exact ⟨_, rfl, find?_map_ite_key _ hnd hmem hrid (fun x => rfl)⟩

/-- Witness for C4: cancelling the confirmed one-seat booking of the
concrete ride returns its seat, a confirm request leaves the ride rows
untouched, and reactivating the cancelled booking with two seats
re-reserves exactly two seats. -/
theorem updateBookingStatus_release_spec_witness :
    (∃ st', updateBookingStatus 2 1 BookingStatus.cancelled stC =
        .ok (st', { bookConf with status := BookingStatus.cancelled }) ∧
      getRide st' 1 = some { rideA with available_seats := 4 }) ∧
    (⟨[rideA], [bookConf, { bookPend with status := BookingStatus.confirmed }],
        [profA], []⟩ : St).rides = stC.rides ∧
    (∃ st', createBooking 0 2 1 2 none none stCanc =
        .ok (st',
          { bookCanc with
            status := BookingStatus.pending,
            seats_booked := 2,
            total_price := rideA.price_per_seat * 2 + rideA.traffic_fee,
            pickup_location := none,
            dropoff_location := none }) ∧
      getRide st' 1 = some { rideA with available_seats := 1 }) := by
  refine ⟨?_, ?_, ?_⟩
  · have h := (updateBookingStatus_release_spec.1 2 1 stC bookConf rideA
      (by decide) (by decide) (by decide) (by decide))
    simpa using h
  · exact updateBookingStatus_release_spec.2.1 1 2 BookingStatus.confirmed stC
      ⟨[rideA], [bookConf, { bookPend with status := BookingStatus.confirmed }],
        [profA], []⟩
      { bookPend with status := BookingStatus.confirmed } (Or.inl rfl) rfl
  · exact updateBookingStatus_release_spec.2.2 0 2 1 2 none none stCanc rideA
      bookCanc (by decide) (by decide) (by decide) (by decide) (by decide)
      (by decide) (by decide) (by decide) (by decide)

/-- C5 counterexample: the booking state machine of the spec is not
enforced — a booking whose status is the terminal completed is moved to
cancelled by updateBookingStatus instead of being rejected, and the ride
row is even mutated (its seats are released, available_seats 3 -> 4). -/
theorem bookingStatus_terminal_cex :
    bookComp.status = BookingStatus.completed ∧
    updateBookingStatus 2 1 BookingStatus.cancelled stComp =
      .ok (⟨[{ rideA with available_seats := 4 }],
        [{ bookComp with status := BookingStatus.cancelled }], [profA], []⟩,
        { bookComp with status := BookingStatus.cancelled }) :=
  ⟨rfl, rfl⟩

/-- C5 (amended): updateBookingStatus validates only that the requested
status is one of confirmed, cancelled, completed (pending stands for any
other request and is a validation failure), that the requester is the
rides driver or the bookings passenger, and that confirmed is requested
by the driver; any request passing those checks is applied to the booking
regardless of its current status, so completed and cancelled are not
terminal in the code. -/
theorem updateBookingStatus_spec
    (u bid : Nat) (s : BookingStatus) (st : St) (b : Booking) (ride : Ride)
    (hb : st.bookings.find? (fun x => x.id == bid) = some b)
    (hr : st.rides.find? (fun r => r.id == b.ride_id) = some ride) :
    (s = BookingStatus.pending →
      updateBookingStatus u bid s st = .error Err.validation) ∧
    (s ≠ BookingStatus.pending → ride.driver_id ≠ u → b.passenger_id ≠ u →
      updateBookingStatus u bid s st = .error Err.forbidden) ∧
    (s = BookingStatus.confirmed → ride.driver_id ≠ u → b.passenger_id = u →
      updateBookingStatus u bid s st = .error Err.forbidden) ∧
    (s ≠ BookingStatus.pending →
      (ride.driver_id = u ∨ b.passenger_id = u) →
      (s = BookingStatus.confirmed → ride.driver_id = u) →
      ∃ st', updateBookingStatus u bid s st =
        .ok (st', { b with status := s })) := by
  refine ⟨?_, ?_, ?_, ?_⟩
  · intro hs
    unfold updateBookingStatus
    rw [if_pos hs]
  · intro hs hd hp
    unfold updateBookingStatus
    rw [if_neg hs, hb]
    dsimp only
    rw [hr]
    dsimp only
    rw [if_pos ⟨hd, hp⟩]
  · intro hs hd hp
    subst hs
    unfold updateBookingStatus
    rw [if_neg (by decide), hb]
    dsimp only
    rw [hr]
    dsimp only
    rw [if_neg (by tauto), if_pos ⟨rfl, hd⟩]
  · intro hs hauth hconf
    unfold updateBookingStatus
    rw [if_neg hs, hb]
    dsimp only
    rw [hr]
    dsimp only
    rw [if_neg (by tauto), if_neg (fun hc => hc.2 (hconf hc.1))]
    exact ⟨_, rfl⟩

/-- Witness for the amended C5 theorem: the completed booking of the
concrete store is cancelled by its passenger (no terminality check), and
a request naming pending is a validation failure. -/
theorem updateBookingStatus_spec_witness :
    (∃ st', updateBookingStatus 2 1 BookingStatus.cancelled stComp =
      .ok (st', { bookComp with status := BookingStatus.cancelled })) ∧
    updateBookingStatus 2 1 BookingStatus.pending stComp =
      .error Err.validation := by
  constructor
  · exact (updateBookingStatus_spec 2 1 BookingStatus.cancelled stComp bookComp
      rideA (by decide) (by decide)).2.2.2 (by decide) (by decide) (by decide)
  · exact (updateBookingStatus_spec 2 1 BookingStatus.pending stComp bookComp
      rideA (by decide) (by decide)).1 rfl

/-- C10: a passenger whose only prior booking on a ride is completed is
not rejected as a duplicate: the completed row itself is reactivated to
pending with the newly requested seats and price and the ride loses
exactly the new seat count; only a prior pending or confirmed booking
triggers the already-booked rejection. -/
theorem createBooking_reactivate_completed_spec :
    (∀ (now : Int) (u rid : Nat) (seats : Int) (pk dp : Option String)
        (st : St) (ride : Ride) (b0 : Booking),
      (st.rides.map Ride.id).Nodup →
      st.rides.find?
        (fun r => r.id == rid && r.status == RideStatus.scheduled) = some ride →
      now < ride.departure_time →
      ride.driver_id ≠ u →
      1 ≤ seats → seats ≤ 8 →
      seats ≤ ride.available_seats →
      st.bookings.find?
        (fun x => x.ride_id == rid && x.passenger_id == u) = some b0 →
      b0.status = BookingStatus.completed →
      ∃ st', createBooking now u rid seats pk dp st =
          .ok (st',
            { b0 with
              status := BookingStatus.pending,
              seats_booked := seats,
              total_price := ride.price_per_seat * seats + ride.traffic_fee,
              pickup_location := pk,
              dropoff_location := dp }) ∧
        getRide st' rid =
          some { ride with available_seats := ride.available_seats - seats }) ∧
    (∀ (now : Int) (u rid : Nat) (seats : Int) (pk dp : Option String)
        (st : St) (ride : Ride) (b0 : Booking),
      st.rides.find?
        (fun r => r.id == rid && r.status == RideStatus.scheduled) = some ride →
      now < ride.departure_time →
      ride.driver_id ≠ u →
      1 ≤ seats → seats ≤ 8 →
      seats ≤ ride.available_seats →
      st.bookings.find?
        (fun x => x.ride_id == rid && x.passenger_id == u) = some b0 →
      b0.status = BookingStatus.pending ∨ b0.status = BookingStatus.confirmed →
      createBooking now u rid seats pk dp st = .error Err.conflict) := by
  constructor
  · intro now u rid seats pk dp st ride b0 hnd hfind hdep hdrv hs1 hs8 hcap hb0 hst
    have hmem : ride ∈ st.rides := List.mem_of_find?_eq_some hfind
    have hrid : ride.id = rid := by
      have hp := List.find?_some hfind
      simp at hp
      exact hp.1
    unfold createBooking
    rw [if_neg (by omega), hfind]
    dsimp only
    rw [if_neg (by omega), if_neg hdrv, if_neg (by omega), hb0]
    dsimp only
    rw [if_neg (by simp [hst])]
    exact ⟨_, rfl, find?_map_ite_key _ hnd hmem hrid (fun x => rfl)⟩
  · intro now u rid seats pk dp st ride b0 hfind hdep hdrv hs1 hs8 hcap hb0 hst
    unfold createBooking
    rw [if_neg (by omega), hfind]
    dsimp only
    rw [if_neg (by omega), if_neg hdrv, if_neg (by omega), hb0]
    dsimp only
    rw [if_pos hst]

/-- Witness for C10: the completed one-seat booking of the concrete store
is reactivated with two seats, while a pending prior booking is rejected
as already booked. -/
theorem createBooking_reactivate_completed_spec_witness :
    (∃ st', createBooking 0 2 1 2 none none stComp =
        .ok (st',
          { bookComp with
            status := BookingStatus.pending,
            seats_booked := 2,
            total_price := rideA.price_per_seat * 2 + rideA.traffic_fee,
            pickup_location := none,
            dropoff_location := none }) ∧
      getRide st' 1 = some { rideA with available_seats := 1 }) ∧
    createBooking 0 2 1 1 none none stR2 = .error Err.conflict := by
  constructor
  · exact createBooking_reactivate_completed_spec.1 0 2 1 2 none none stComp
      rideA bookComp (by decide) (by decide) (by decide) (by decide) (by decide)
      (by decide) (by decide) (by decide) (by decide)
  · exact createBooking_reactivate_completed_spec.2 0 2 1 1 none none stR2
      rideA1 bookA (by decide) (by decide) (by decide) (by decide) (by decide)
      (by decide) (by decide) (by decide)

/-- C8: a bookings total_price is set at creation or reactivation to
price_per_seat * seats_booked + traffic_fee and never changed afterwards:
a booking status update writes only the status column (ids, seat counts
and total prices of all bookings are unchanged), and a ride update —
including one that changes price_per_seat — leaves the bookings table
untouched. -/
theorem totalPrice_frozen_spec :
    (∀ (now : Int) (u rid : Nat) (seats : Int) (pk dp : Option String)
        (st : St) (ride : Ride),
      st.rides.find?
        (fun r => r.id == rid && r.status == RideStatus.scheduled) = some ride →
      now < ride.departure_time →
      ride.driver_id ≠ u →
      1 ≤ seats → seats ≤ 8 →
      seats ≤ ride.available_seats →
      (∀ b ∈ st.bookings, b.ride_id = rid → b.passenger_id = u →
        b.status ≠ BookingStatus.pending ∧ b.status ≠ BookingStatus.confirmed) →
      ∃ st' b', createBooking now u rid seats pk dp st = .ok (st', b') ∧
        b'.total_price = ride.price_per_seat * seats + ride.traffic_fee ∧
        b'.seats_booked = seats) ∧
    (∀ (u bid : Nat) (s : BookingStatus) (st st' : St) (b' : Booking),
      (st.bookings.map Booking.id).Nodup →
      updateBookingStatus u bid s st = .ok (st', b') →
      st'.bookings.map (fun x => (x.id, x.seats_booked, x.total_price)) =
        st.bookings.map (fun x => (x.id, x.seats_booked, x.total_price))) ∧
    (∀ (u rid : Nat) (dep av : Option Int) (pr : Option ℚ)
        (stt : Option RideStatus) (st st' : St) (r : Ride),
      updateRide u rid dep av pr stt st = .ok (st', r) →
      st'.bookings = st.bookings) := by
  refine ⟨?_, ?_, ?_⟩
  · intro now u rid seats pk dp st ride hfind hdep hdrv hs1 hs8 hcap hnb
    unfold createBooking
    rw [if_neg (by omega), hfind]
    dsimp only
    rw [if_neg (by omega), if_neg hdrv, if_neg (by omega)]
    rcases hex : st.bookings.find?
        (fun b => b.ride_id == rid && b.passenger_id == u) with _ | b0
    · rw [hex]
      dsimp only
      exact ⟨_, _, rfl, rfl, rfl⟩
    · rw [hex]
      dsimp only
      have hb0mem : b0 ∈ st.bookings := List.mem_of_find?_eq_some hex
      have hb0p := List.find?_some hex
      simp at hb0p
      have hb0stat := hnb b0 hb0mem hb0p.1 hb0p.2
      rw [if_neg (by tauto)]
      exact ⟨_, _, rfl, rfl, rfl⟩
  · intro u bid s st st' b' hnd h
    unfold updateBookingStatus at h
    split at h
    · cases h
    · split at h
      · cases h
      next b0 hb0 =>
        split at h
        · cases h
        next ride hr =>
          dsimp only at h
          split at h
          · cases h
          · split at h
            · cases h
            · simp only [Except.ok.injEq, Prod.mk.injEq] at h
              obtain ⟨rfl, rfl⟩ := h
              have hb0mem : b0 ∈ st.bookings := List.mem_of_find?_eq_some hb0
              have hb0id : b0.id = bid := by
                simpa using List.find?_some hb0
              show (st.bookings.map fun x =>
                  if x.id = bid then { b0 with status := s } else x).map
                  (fun x => (x.id, x.seats_booked, x.total_price)) = _
              rw [List.map_map]
              refine List.map_congr_left ?_
              intro x hx
              simp only [Function.comp]
              by_cases hxid : x.id = bid
              · have hxb0 : x = b0 :=
                  List.inj_on_of_nodup_map hnd hx hb0mem (by rw [hxid, hb0id])
                subst hxb0
                simp [hxid]
              · simp [hxid]
  · intro u rid dep av pr stt st st' r h
    unfold updateRide at h
    split at h
    · cases h
    · split at h
      · cases h
      · dsimp only at h
        split at h
        · cases h
        · simp only [Except.ok.injEq, Prod.mk.injEq] at h
          obtain ⟨rfl, rfl⟩ := h
          rfl

/-- Witness for C8: the two-seat booking on the one-dinar ride freezes
total_price at 1 * 2 + 0, a confirm request preserves every bookings
(id, seats, price) triple, and a ride price update from 1 to 5 leaves
the bookings table equal. -/
theorem totalPrice_frozen_spec_witness :
    (∃ st' b', createBooking 0 2 1 2 none none stR = .ok (st', b') ∧
      b'.total_price = rideA.price_per_seat * 2 + rideA.traffic_fee ∧
      b'.seats_booked = 2) ∧
    ((⟨[rideA], [bookConf, { bookPend with status := BookingStatus.confirmed }],
        [profA], []⟩ : St).bookings.map
        (fun x => (x.id, x.seats_booked, x.total_price)) =
      stC.bookings.map (fun x => (x.id, x.seats_booked, x.total_price))) ∧
    (⟨[{ rideA with price_per_seat := 5 }], [bookConf, bookPend], [profA], []⟩
        : St).bookings = stC.bookings := by
  refine ⟨?_, ?_, ?_⟩
  · exact totalPrice_frozen_spec.1 0 2 1 2 none none stR rideA (by decide)
      (by decide) (by decide) (by decide) (by decide) (by decide) (by decide)
  · exact totalPrice_frozen_spec.2.1 1 2 BookingStatus.confirmed stC
      ⟨[rideA], [bookConf, { bookPend with status := BookingStatus.confirmed }],
        [profA], []⟩
      { bookPend with status := BookingStatus.confirmed } (by decide) rfl
  · exact totalPrice_frozen_spec.2.2 1 1 none none (some 5) none stC
      ⟨[{ rideA with price_per_seat := 5 }], [bookConf, bookPend], [profA], []⟩
      { rideA with price_per_seat := 5 } rfl

/-- C7: after a review create, a rating update or a delete, the stored
profile rating of the affected reviewee equals the recomputed aggregate
(ROUND(AVG(rating), 2)) over the reviews held for that reviewee in the
resulting store, and the aggregate is 0 when no reviews remain. -/
theorem ratingAggregate_spec :
    (∀ (u bid rv : Nat) (rt : Int) (c : Option String) (st : St)
        (booking : Booking) (ride : Ride),
      1 ≤ rt → rt ≤ 5 →
      st.bookings.find?
        (fun b => b.id == bid && b.status == BookingStatus.completed) =
        some booking →
      st.rides.find? (fun r => r.id == booking.ride_id) = some ride →
      (ride.driver_id = u ∨ booking.passenger_id = u) →
      (ride.driver_id = u → rv = booking.passenger_id) →
      (booking.passenger_id = u → rv = ride.driver_id) →
      st.reviews.find?
        (fun v => v.booking_id == bid && v.reviewer_id == u) = none →
      ∃ st' v, createReview u bid rv rt c st = .ok (st', v) ∧
        st'.reviews = st.reviews ++ [v] ∧ v.rating = rt ∧ v.reviewee_id = rv ∧
        (∀ p ∈ st'.profiles, p.user_id = rv →
          p.rating = recomputedRating st'.reviews rv)) ∧
    (∀ (u vid : Nat) (rt : Int) (c : Option String) (st : St) (v : Review),
      st.reviews.find? (fun x => x.id == vid && x.reviewer_id == u) = some v →
      1 ≤ rt → rt ≤ 5 →
      ∃ st' v', updateReview u vid (some rt) c st = .ok (st', v') ∧
        v'.rating = rt ∧
        (∀ p ∈ st'.profiles, p.user_id = v.reviewee_id →
          p.rating = recomputedRating st'.reviews v.reviewee_id)) ∧
    (∀ (u vid : Nat) (st : St) (v : Review),
      st.reviews.find? (fun x => x.id == vid && x.reviewer_id == u) = some v →
      ∃ st', deleteReview u vid st = .ok st' ∧
        st'.reviews = st.reviews.filter (fun x => !(x.id == vid)) ∧
        (∀ p ∈ st'.profiles, p.user_id = v.reviewee_id →
          p.rating = recomputedRating st'.reviews v.reviewee_id)) ∧
    (∀ (rs : List Review) (w : Nat),
      rs.filter (fun x => x.reviewee_id == w) = [] → recomputedRating rs w = 0) := by
  refine ⟨?_, ?_, ?_, ?_⟩
  · intro u bid rv rt c st booking ride hr1 hr5 hbf hrf hwho hd hp hnone
    unfold createReview
    rw [if_neg (by omega), if_neg (by omega), hbf]
    dsimp only
    rw [hrf]
    dsimp only
    rw [if_neg (by tauto), if_neg (fun hc => hc.2 (hd hc.1)),
      if_neg (fun hc => hc.2 (hp hc.1)), hnone]
    rw [if_neg (by simp)]
    refine ⟨_, _, rfl, rfl, rfl, rfl, ?_⟩
    intro p hpmem hpu
    rcases List.mem_map.mp hpmem with ⟨p0, hp0, rfl⟩
    by_cases hpu0 : p0.user_id = rv
    · simp only [hpu0, if_true]
    · rw [if_neg hpu0] at hpu
      exact absurd hpu hpu0
  · intro u vid rt c st v hvf hr1 hr5
    unfold updateReview
    rw [hvf]
    dsimp only
    simp only [Option.getD_some]
    rw [if_neg (fun hc => by omega), if_neg (fun hc => hc.1 (by omega))]
    rw [if_pos (show rt ≠ 0 by omega)]
    refine ⟨_, _, rfl, ?_, ?_⟩
    · show (if rt ≠ 0 then rt else v.rating) = rt
      rw [if_pos (show rt ≠ 0 by omega)]
    · intro p hpmem hpu
      rcases List.mem_map.mp hpmem with ⟨p0, hp0, rfl⟩
      by_cases hpu0 : p0.user_id = v.reviewee_id
      · simp only [hpu0, if_true]
      · rw [if_neg hpu0] at hpu
        exact absurd hpu hpu0
  · intro u vid st v hvf
    unfold deleteReview
    rw [hvf]
    dsimp only
    refine ⟨_, rfl, rfl, ?_⟩
    intro p hpmem hpu
    rcases List.mem_map.mp hpmem with ⟨p0, hp0, rfl⟩
    by_cases hpu0 : p0.user_id = v.reviewee_id
    · simp only [hpu0, if_true]
    · rw [if_neg hpu0] at hpu
      exact absurd hpu hpu0
  · intro rs w hempty
    unfold recomputedRating
    rw [hempty]
    rfl

/-- Witness for C7: the reviewee with ratings [5,4,3] has aggregate 4.00;
deleting the rating-3 review recomputes the aggregate over [5,4] to 4.50;
a review creation on the completed booking keeps the stored rating in
sync; and an empty review set yields aggregate 0. -/
theorem ratingAggregate_spec_witness :
    recomputedRating stRev.reviews 1 = 4 ∧
    (∃ st', deleteReview 4 3 stRev = .ok st' ∧
      st'.reviews = stRev.reviews.filter (fun x => !(x.id == 3)) ∧
      (∀ p ∈ st'.profiles, p.user_id = 1 →
        p.rating = recomputedRating st'.reviews 1)) ∧
    recomputedRating (stRev.reviews.filter (fun x => !(x.id == 3))) 1 = 9 / 2 ∧
    (∃ st' v, createReview 2 1 1 5 none stComp = .ok (st', v) ∧
      st'.reviews = stComp.reviews ++ [v] ∧ v.rating = 5 ∧ v.reviewee_id = 1 ∧
      (∀ p ∈ st'.profiles, p.user_id = 1 →
        p.rating = recomputedRating st'.reviews 1)) ∧
    recomputedRating [] 1 = 0 := by
  refine ⟨?_, ?_, ?_, ?_, ?_⟩
  · show recomputedRating [rev1, rev2, rev3] 1 = 4
    rw [recomputedRating]
    norm_num [rev1, rev2, rev3, sqlRound2]
  · exact ratingAggregate_spec.2.2.1 4 3 stRev rev3 (by decide)
  · show recomputedRating [rev1, rev2] 1 = 9 / 2
    rw [recomputedRating]
    norm_num [rev1, rev2, sqlRound2]
  · exact ratingAggregate_spec.1 2 1 1 5 none stComp bookComp rideA
      (by decide) (by decide) (by decide) (by decide) (by decide) (by decide)
      (by decide) (by decide)
  · exact ratingAggregate_spec.2.2.2 [] 1 rfl

end Tareeqi
